import Mathlib

/-!
Verification of the atproto CAR extractor batch pipeline (main.go).

The program is embedded shallowly: every external collaborator (identity
resolution, XRPC transport, JSON marshalling, the on-disk filesystem) is an
oracle field of an `Env` record, the filesystem is an explicit association
list threaded through each function, and each observable action (a commit or
record written, a record skipped with a warning, a blob listed/fetched, a
per-identifier error report) is an `Event` appended to a trace.  Each Go
function of main.go becomes a Lean function returning
`(result, trace, filesystem)`.

The Merkle Search Tree walk performed by the indigo library call
`repo.ForEach` is not part of this repository; it is modelled from the spec
(node with prefix-compressed entries, in-order descent, stateful full-key
reconstruction).
-/

namespace CarExtractor

/-- Opaque record payload handle: records are treated as opaque structured
data and re-serialized verbatim, so their content is irrelevant here. -/
abbrev RecordData := Nat

/-- Signed commit object of a repository: owner DID, revision, MST root CID,
detached signature. -/
structure SignedCommit where
  did : String
  rev : String
  dataCid : Nat
  sig : String
  deriving DecidableEq

mutual

/-- Modelled from the spec: an MST node holds an optional leftmost subtree
(`empty` stands for absence) and an ordered sequence of entries.  The walk
itself lives in the indigo library (`repo.ForEach`), not in this repository. -/
inductive MSTNode : Type where
  | empty : MSTNode
  | node (left : MSTNode) (entries : List MSTEntry) : MSTNode

/-- Modelled from the spec: an MST entry carries a shared-prefix length with
the previous key, the remaining key suffix, a value CID and an optional
right-adjacent subtree. -/
inductive MSTEntry : Type where
  | mk (plen : Nat) (suffix : String) (valueCid : Nat) (subtree : MSTNode) : MSTEntry

end

mutual

/-- Modelled from the spec: in-order flattening of an MST — a node's leftmost
subtree first, then each entry followed by its right-adjacent subtree. -/
def flattenNode : MSTNode → List (Nat × String × Nat)
  | .empty => []
  | .node l es => flattenNode l ++ flattenEntries es

/-- Modelled from the spec: in-order flattening of an entry sequence. -/
def flattenEntries : List MSTEntry → List (Nat × String × Nat)
  | [] => []
  | .mk p s v sub :: rest => (p, s, v) :: (flattenNode sub ++ flattenEntries rest)

end

/-- Modelled from the spec: stateful full-key reconstruction along the
in-order entry stream — the full key is the previous emitted key's first
`plen` characters followed by the stored suffix; a shared-prefix length
exceeding the previous key's length is a structural violation (CorruptTree,
`none`). -/
def reconstructKeys (prev : String) : List (Nat × String × Nat) → Option (List (String × Nat))
  | [] => some []
  | (p, s, v) :: rest =>
    if p ≤ prev.length then
      let key := prev.take p ++ s
      match reconstructKeys key rest with
      | some ks => some ((key, v) :: ks)
      | none => none
    else
      none

/-- Modelled from the spec: the ordered `(full key, value CID)` sequence of an
MST, or `none` on a structurally corrupt tree. -/
def mstTraverse (t : MSTNode) : Option (List (String × Nat)) :=
  reconstructKeys "" (flattenNode t)

/-- A decoded repository, as produced by `repo.ReadRepoFromCar`: the signed
commit, the MST, and per-key record resolution (which may fail per key). -/
structure Repo where
  signedCommit : SignedCommit
  mst : MSTNode
  getRecord : String → Except String RecordData

/-- Result of an identity lookup: canonical DID and PDS endpoint. -/
structure Identity where
  did : String
  pdsEndpoint : String

/-- One page of a paginated blob listing: content hashes plus an optional
continuation cursor (nil or empty string signals no further pages). -/
structure BlobPage where
  cids : List String
  cursor : Option String

/-- The local filesystem: an association list from path to contents; a write
shadows any earlier entry for the same path (overwrite). -/
abbrev FS := List (String × String)

/-- Contents at a path, if the file exists. -/
def fsLookup (fs : FS) (p : String) : Option String :=
  List.lookup p fs

/-- Write (or overwrite) a file. -/
def fsWrite (fs : FS) (p c : String) : FS :=
  (p, c) :: fs

/-- The os.Stat existence check. -/
def fsExists (fs : FS) (p : String) : Bool :=
  (fsLookup fs p).isSome

/-- Observable actions of the program, in chronological order. -/
inductive Event : Type where
  | processing (atid : String)
  | carFetched (did : String)
  | carWritten (path : String)
  | commitWritten (path : String)
  | recordWritten (key : String)
  | recordSkipped (key : String)
  | listCalled (cursor : String)
  | blobSkipped (cidStr : String)
  | blobFetched (cidStr : String)
  | blobWritten (cidStr : String)
  | errorReported (did : String)
  deriving DecidableEq

/-- Oracles for every external collaborator the program calls. -/
structure Env where
  readFile : String → Except String String
  mkdirAll : String → Except String Unit
  parseAtIdentifier : String → Except String String
  lookup : String → Except String Identity
  syncGetRepo : String → Except String String
  readRepoFromCar : String → Except String Repo
  marshalCommit : SignedCommit → Except String String
  marshalRecord : RecordData → Except String String
  writeFile : String → String → Except String Unit
  listBlobs : String → String → Except String BlobPage
  getBlob : String → String → Except String String

/-- Program configuration (main.go `Config`). -/
structure Config where
  downloadBlobs : Bool
  carsDir : String
  recordsDir : String
  didsFile : String

/-- strings.TrimSpace: drop leading and trailing whitespace characters. -/
def trimSpace (s : String) : String :=
  String.mk (((s.data.dropWhile Char.isWhitespace).reverse.dropWhile
    Char.isWhitespace).reverse)

/-- strings.Split on the newline separator, over the character list. -/
def splitLinesAux (cs : List Char) : List String :=
  match cs with
  | [] => [""]
  | c :: rest =>
    match splitLinesAux rest with
    | [] => [""]
    | s :: ss =>
      if c = '\n' then "" :: s :: ss
      else String.mk (c :: s.data) :: ss

/-- strings.Split(content, "\n"): the lines of the file, separators removed,
empty segments preserved. -/
def splitLines (s : String) : List String :=
  splitLinesAux s.data

/-- The loop body of `readDIDsFromFile`: trim the line and append it when
non-blank. -/
def appendDIDLine (dids : List String) (line : String) : List String :=
  let l := trimSpace line
  if l ≠ "" then dids ++ [l] else dids

/-- The pure body of `readDIDsFromFile`: split the file contents on newlines,
keep the non-blank lines in file order, never deduplicating. -/
def parseDIDLines (content : String) : List String :=
  (splitLines content).foldl appendDIDLine []

/-- `readDIDsFromFile`: read the file, then parse its lines. -/
def readDIDsFromFile (env : Env) (filename : String) : Except String (List String) :=
  match env.readFile filename with
  | .error e => .error ("failed to read file: " ++ e)
  | .ok content => .ok (parseDIDLines content)

/-- `getActivatedDIDs` just delegates to `readDIDsFromFile`. -/
def getActivatedDIDs (env : Env) (filename : String) : Except String (List String) :=
  readDIDsFromFile env filename

/-- `ensureDirectories`: create the cars and records directories, failing on
the first error. -/
def ensureDirectories (env : Env) (config : Config) : Except String Unit :=
  match env.mkdirAll config.carsDir with
  | .error e => .error ("failed to create directory " ++ config.carsDir ++ ": " ++ e)
  | .ok () =>
    match env.mkdirAll config.recordsDir with
    | .error e => .error ("failed to create directory " ++ config.recordsDir ++ ": " ++ e)
    | .ok () => .ok ()

/-- `downloadRepo`: require a PDS endpoint, fetch the full repository CAR over
the network (`SyncGetRepo`) and write it to `carPath`, overwriting any
existing file.  There is no existence check before the fetch. -/
def downloadRepo (env : Env) (fs : FS) (ident : Identity) (carPath : String) :
    Except String Unit × List Event × FS :=
  if ident.pdsEndpoint = "" then
    (.error "no PDS endpoint for identity", [], fs)
  else
    match env.syncGetRepo ident.did with
    | .error e => (.error e, [], fs)
    | .ok bytes =>
      match env.writeFile carPath bytes with
      | .error e => (.error e, [.carFetched ident.did], fs)
      | .ok () =>
        (.ok (), [.carFetched ident.did, .carWritten carPath],
          fsWrite fs carPath bytes)

/-- The per-record callback loop of `unpackRecords` (`r.ForEach`): for each
`(key, cid)` pair in traversal order, fetch the record (on failure: warn and
skip), marshal it to JSON (on failure: warn and skip), and write it to
`recordsPath/key.json` (on failure: the error propagates out of the callback
and aborts the loop). -/
def forEachRecords (env : Env) (r : Repo) (recordsPath : String) (fs : FS) :
    List (String × Nat) → Except String Unit × List Event × FS
  | [] => (.ok (), [], fs)
  | (k, _) :: rest =>
    match r.getRecord k with
    | .error _ =>
      let out := forEachRecords env r recordsPath fs rest
      (out.1, .recordSkipped k :: out.2.1, out.2.2)
    | .ok rec =>
      match env.marshalRecord rec with
      | .error _ =>
        let out := forEachRecords env r recordsPath fs rest
        (out.1, .recordSkipped k :: out.2.1, out.2.2)
      | .ok js =>
        let recPath := recordsPath ++ "/" ++ k ++ ".json"
        match env.writeFile recPath js with
        | .error e => (.error e, [], fs)
        | .ok () =>
          let out := forEachRecords env r recordsPath (fsWrite fs recPath js) rest
          (out.1, .recordWritten k :: out.2.1, out.2.2)

/-- `unpackRecords`: open the CAR file, decode the repository, write the
signed commit as `recordsPath/_commit.json` first, then walk the MST and
export every record in traversal order via the per-record callback. -/
def unpackRecords (env : Env) (fs : FS) (carPath recordsPath : String) :
    Except String Unit × List Event × FS :=
  match fsLookup fs carPath with
  | none => (.error "open failed", [], fs)
  | some car =>
    match env.readRepoFromCar car with
    | .error e => (.error e, [], fs)
    | .ok r =>
      match env.marshalCommit r.signedCommit with
      | .error e => (.error e, [], fs)
      | .ok cj =>
        let commitPath := recordsPath ++ "/_commit.json"
        match env.writeFile commitPath cj with
        | .error e => (.error e, [], fs)
        | .ok () =>
          match mstTraverse r.mst with
          | none =>
            (.error "corrupt tree", [.commitWritten commitPath],
              fsWrite fs commitPath cj)
          | some ks =>
            let out := forEachRecords env r recordsPath (fsWrite fs commitPath cj) ks
            (out.1, .commitWritten commitPath :: out.2.1, out.2.2)

/-- The inner per-page loop of `downloadBlobs`: for each listed content hash,
skip it when a file for it already exists (os.Stat), otherwise fetch the blob
(`SyncGetBlob`; a failed fetch aborts the remaining blob work) and write it. -/
def processBlobPage (env : Env) (topDir did : String) (fs : FS) :
    List String → Except String Unit × List Event × FS
  | [] => (.ok (), [], fs)
  | cidStr :: rest =>
    let blobPath := topDir ++ "/" ++ cidStr
    if fsExists fs blobPath then
      let out := processBlobPage env topDir did fs rest
      (out.1, .blobSkipped cidStr :: out.2.1, out.2.2)
    else
      match env.getBlob cidStr did with
      | .error e => (.error e, [.blobFetched cidStr], fs)
      | .ok bytes =>
        match env.writeFile blobPath bytes with
        | .error e => (.error e, [.blobFetched cidStr], fs)
        | .ok () =>
          let out := processBlobPage env topDir did (fsWrite fs blobPath bytes) rest
          (out.1, .blobFetched cidStr :: .blobWritten cidStr :: out.2.1, out.2.2)

/-- The pagination loop of `downloadBlobs`: list one page (`SyncListBlobs`),
process its hashes, and continue with the returned cursor while it is present
and non-empty.  The Go loop is unbounded; `fuel` bounds the recursion depth
in the embedding and every theorem supplies enough of it. -/
def downloadBlobsLoop (env : Env) (topDir did : String) :
    Nat → String → FS → Except String Unit × List Event × FS
  | 0, _, fs => (.error "out of fuel", [], fs)
  | fuel + 1, cursor, fs =>
    match env.listBlobs cursor did with
    | .error e => (.error e, [.listCalled cursor], fs)
    | .ok page =>
      let out := processBlobPage env topDir did fs page.cids
      match out.1 with
      | .error e => (.error e, .listCalled cursor :: out.2.1, out.2.2)
      | .ok () =>
        match page.cursor with
        | some c =>
          if c ≠ "" then
            let out2 := downloadBlobsLoop env topDir did fuel c out.2.2
            (out2.1, .listCalled cursor :: out.2.1 ++ out2.2.1, out2.2.2)
          else
            (.ok (), .listCalled cursor :: out.2.1, out.2.2)
        | none => (.ok (), .listCalled cursor :: out.2.1, out.2.2)

/-- `downloadBlobs`: require a PDS endpoint, then run the pagination loop
starting from the empty cursor, writing blobs under `recordsPath/_blob`. -/
def downloadBlobs (env : Env) (fs : FS) (ident : Identity) (recordsPath : String)
    (fuel : Nat) : Except String Unit × List Event × FS :=
  let topDir := recordsPath ++ "/_blob"
  if ident.pdsEndpoint = "" then
    (.error "no PDS endpoint for identity", [], fs)
  else
    downloadBlobsLoop env topDir ident.did fuel "" fs

/-- `processRepo`: parse the identifier, resolve the identity, download the
CAR, unpack the records, and (when enabled) synchronize the blobs.  The first
failing stage aborts this identifier's pipeline. -/
def processRepo (env : Env) (config : Config) (fuel : Nat) (fs : FS) (did : String) :
    Except String Unit × List Event × FS :=
  match env.parseAtIdentifier did with
  | .error e => (.error e, [], fs)
  | .ok atid =>
    match env.lookup atid with
    | .error e => (.error e, [.processing atid], fs)
    | .ok ident =>
      let carPath := config.carsDir ++ "/" ++ ident.did ++ ".car"
      let out1 := downloadRepo env fs ident carPath
      match out1.1 with
      | .error e => (.error e, .processing atid :: out1.2.1, out1.2.2)
      | .ok () =>
        let recordsPath := config.recordsDir ++ "/" ++ ident.did
        let out2 := unpackRecords env out1.2.2 carPath recordsPath
        match out2.1 with
        | .error e => (.error e, .processing atid :: out1.2.1 ++ out2.2.1, out2.2.2)
        | .ok () =>
          if config.downloadBlobs then
            let out3 := downloadBlobs env out2.2.2 ident recordsPath fuel
            (out3.1, .processing atid :: out1.2.1 ++ out2.2.1 ++ out3.2.1, out3.2.2)
          else
            (.ok (), .processing atid :: out1.2.1 ++ out2.2.1, out2.2.2)

/-- The batch loop of `run`: process each identifier in turn; a failure is
reported (`errorReported`) and the loop continues with the next identifier. -/
def runLoop (env : Env) (config : Config) (fuel : Nat) :
    FS → List String → List Event × FS
  | fs, [] => ([], fs)
  | fs, did :: rest =>
    let p := processRepo env config fuel fs did
    let r := runLoop env config fuel p.2.2 rest
    match p.1 with
    | .error _ => (p.2.1 ++ .errorReported did :: r.1, r.2)
    | .ok () => (p.2.1 ++ r.1, r.2)

/-- `run`: create the output directories, read the identifier list, and run
the batch loop; reading failures are fatal, per-identifier failures are not. -/
def run (env : Env) (config : Config) (fuel : Nat) (fs : FS) :
    Except String Unit × List Event × FS :=
  match ensureDirectories env config with
  | .error e => (.error e, [], fs)
  | .ok () =>
    match getActivatedDIDs env config.didsFile with
    | .error e => (.error ("failed to get DIDs from file: " ++ e), [], fs)
    | .ok dids =>
      let out := runLoop env config fuel fs dids
      (.ok (), out.1, out.2)

/-- The keys of the records actually written, in trace order. -/
def writtenKeys (tr : List Event) : List String :=
  tr.filterMap (fun e =>
    match e with
    | .recordWritten k => some k
    | _ => none)

/-! Concrete collaborators used to evaluate the model on explicit inputs. -/

/-- A baseline environment whose collaborators do as little as possible. -/
def idleEnv : Env where
  readFile := fun _ => .error "io"
  mkdirAll := fun _ => .ok ()
  parseAtIdentifier := fun s => .ok s
  lookup := fun _ => .error "unresolved identity"
  syncGetRepo := fun _ => .error "transport"
  readRepoFromCar := fun _ => .error "malformed container"
  marshalCommit := fun _ => .ok "commitjson"
  marshalRecord := fun _ => .ok "recjson"
  writeFile := fun _ _ => .ok ()
  listBlobs := fun _ _ => .ok { cids := [], cursor := none }
  getBlob := fun _ _ => .error "transport"

/-- A two-record repository: keys "a/b" and "a/c" (the second entry reuses a
shared-prefix length of 2). -/
def sampleRepo : Repo where
  signedCommit := { did := "did:plc:w", rev := "r1", dataCid := 7, sig := "s" }
  mst := .node .empty [.mk 0 "a/b" 1 .empty, .mk 2 "c" 2 .empty]
  getRecord := fun _ => .ok 0

/-- An environment in which one repository downloads and decodes to
`sampleRepo`. -/
def sampleEnv : Env :=
  { idleEnv with
    readRepoFromCar := fun _ => .ok sampleRepo
    syncGetRepo := fun _ => .ok "carbytes"
    lookup := fun _ => .ok { did := "did:plc:w", pdsEndpoint := "https://pds.example" } }

/-! Helper lemmas. -/

theorem writtenKeys_nil : writtenKeys [] = [] := rfl

theorem writtenKeys_append (t1 t2 : List Event) :
    writtenKeys (t1 ++ t2) = writtenKeys t1 ++ writtenKeys t2 :=
  List.filterMap_append t1 t2 _

theorem writtenKeys_cons_written (k : String) (tr : List Event) :
    writtenKeys (.recordWritten k :: tr) = k :: writtenKeys tr := rfl

theorem writtenKeys_cons_skipped (k : String) (tr : List Event) :
    writtenKeys (.recordSkipped k :: tr) = writtenKeys tr := rfl

theorem writtenKeys_cons_commit (p : String) (tr : List Event) :
    writtenKeys (.commitWritten p :: tr) = writtenKeys tr := rfl

/-- Unfolding of `unpackRecords` when every stage before the record loop
succeeds. -/
theorem unpackRecords_eq (env : Env) (fs : FS) (carPath recordsPath car : String)
    (r : Repo) (cj : String) (ks : List (String × Nat))
    (h1 : fsLookup fs carPath = some car)
    (h2 : env.readRepoFromCar car = .ok r)
    (h3 : env.marshalCommit r.signedCommit = .ok cj)
    (h4 : env.writeFile (recordsPath ++ "/_commit.json") cj = .ok ())
    (h5 : mstTraverse r.mst = some ks) :
    unpackRecords env fs carPath recordsPath =
      ((forEachRecords env r recordsPath
          (fsWrite fs (recordsPath ++ "/_commit.json") cj) ks).1,
       .commitWritten (recordsPath ++ "/_commit.json") ::
         (forEachRecords env r recordsPath
           (fsWrite fs (recordsPath ++ "/_commit.json") cj) ks).2.1,
       (forEachRecords env r recordsPath
         (fsWrite fs (recordsPath ++ "/_commit.json") cj) ks).2.2) := by
  simp only [unpackRecords, h1, h2, h3, h4, h5]

/-- Step equation: a record whose fetch fails is skipped with a warning. -/
theorem forEach_cons_getErr (env : Env) (r : Repo) (rp : String) (fs : FS)
    (k : String) (v : Nat) (rest : List (String × Nat)) (e : String)
    (hg : r.getRecord k = .error e) :
    forEachRecords env r rp fs ((k, v) :: rest) =
      ((forEachRecords env r rp fs rest).1,
       .recordSkipped k :: (forEachRecords env r rp fs rest).2.1,
       (forEachRecords env r rp fs rest).2.2) := by
  simp only [forEachRecords, hg]

/-- Step equation: a record whose JSON marshalling fails is skipped. -/
theorem forEach_cons_marshalErr (env : Env) (r : Repo) (rp : String) (fs : FS)
    (k : String) (v : Nat) (rest : List (String × Nat)) (rec : RecordData) (e : String)
    (hg : r.getRecord k = .ok rec) (hm : env.marshalRecord rec = .error e) :
    forEachRecords env r rp fs ((k, v) :: rest) =
      ((forEachRecords env r rp fs rest).1,
       .recordSkipped k :: (forEachRecords env r rp fs rest).2.1,
       (forEachRecords env r rp fs rest).2.2) := by
  simp only [forEachRecords, hg, hm]

/-- Step equation: a successfully fetched, marshalled and written record. -/
theorem forEach_cons_writeOk (env : Env) (r : Repo) (rp : String) (fs : FS)
    (k : String) (v : Nat) (rest : List (String × Nat)) (rec : RecordData) (js : String)
    (hg : r.getRecord k = .ok rec) (hm : env.marshalRecord rec = .ok js)
    (hw : env.writeFile (rp ++ "/" ++ k ++ ".json") js = .ok ()) :
    forEachRecords env r rp fs ((k, v) :: rest) =
      ((forEachRecords env r rp (fsWrite fs (rp ++ "/" ++ k ++ ".json") js) rest).1,
       .recordWritten k ::
         (forEachRecords env r rp (fsWrite fs (rp ++ "/" ++ k ++ ".json") js) rest).2.1,
       (forEachRecords env r rp (fsWrite fs (rp ++ "/" ++ k ++ ".json") js) rest).2.2) := by
  simp only [forEachRecords, hg, hm, hw]

/-- Step equation: a failing record write aborts the loop at once. -/
theorem forEach_cons_writeErr (env : Env) (r : Repo) (rp : String) (fs : FS)
    (k : String) (v : Nat) (rest : List (String × Nat)) (rec : RecordData) (js e : String)
    (hg : r.getRecord k = .ok rec) (hm : env.marshalRecord rec = .ok js)
    (hw : env.writeFile (rp ++ "/" ++ k ++ ".json") js = .error e) :
    forEachRecords env r rp fs ((k, v) :: rest) = (.error e, [], fs) := by
  simp only [forEachRecords, hg, hm, hw]

/-- With a reliable sink the record loop always completes. -/
theorem forEach_ok_of_writeOk (env : Env) (r : Repo) (rp : String)
    (hW : ∀ p c, env.writeFile p c = .ok ()) :
    ∀ (l : List (String × Nat)) (fs : FS),
      (forEachRecords env r rp fs l).1 = .ok () := by
  intro l
  induction l with
  | nil => intro fs; rfl
  | cons kv rest ih =>
    intro fs
    obtain ⟨k, v⟩ := kv
    cases hg : r.getRecord k with
    | error e => rw [forEach_cons_getErr env r rp fs k v rest e hg]; exact ih fs
    | ok rec =>
      cases hm : env.marshalRecord rec with
      | error e => rw [forEach_cons_marshalErr env r rp fs k v rest rec e hg hm]; exact ih fs
      | ok js =>
        rw [forEach_cons_writeOk env r rp fs k v rest rec js hg hm (hW _ _)]
        exact ih _

/-- With a reliable sink, each key of the loop produces its event: skipped
with a warning when its fetch or its marshalling fails, written otherwise —
and the failure of one key never removes another key's event. -/
theorem forEach_mem_results (env : Env) (r : Repo) (rp : String)
    (hW : ∀ p c, env.writeFile p c = .ok ()) :
    ∀ (l : List (String × Nat)) (fs : FS) (kv : String × Nat), kv ∈ l →
      (∀ e, r.getRecord kv.1 = .error e →
        Event.recordSkipped kv.1 ∈ (forEachRecords env r rp fs l).2.1) ∧
      (∀ rec e, r.getRecord kv.1 = .ok rec → env.marshalRecord rec = .error e →
        Event.recordSkipped kv.1 ∈ (forEachRecords env r rp fs l).2.1) ∧
      (∀ rec js, r.getRecord kv.1 = .ok rec → env.marshalRecord rec = .ok js →
        Event.recordWritten kv.1 ∈ (forEachRecords env r rp fs l).2.1) := by
  intro l
  induction l with
  | nil => intro fs kv hmem; exact absurd hmem (List.not_mem_nil kv)
  | cons kv0 rest ih =>
    intro fs kv hmem
    obtain ⟨k0, v0⟩ := kv0
    rcases List.mem_cons.mp hmem with heq | htail
    · subst heq
      cases hg : r.getRecord k0 with
      | error e0 =>
        rw [forEach_cons_getErr env r rp fs k0 v0 rest e0 hg]
        refine ⟨?_, ?_, ?_⟩
        · intro e h
          exact List.mem_cons_self _ _
        · intro rec e h hme
          simp [hg] at h
        · intro rec js h hmo
          simp [hg] at h
      | ok rec0 =>
        cases hm : env.marshalRecord rec0 with
        | error e0 =>
          rw [forEach_cons_marshalErr env r rp fs k0 v0 rest rec0 e0 hg hm]
          refine ⟨?_, ?_, ?_⟩
          · intro e h
            simp [hg] at h
          · intro rec e h hme
            exact List.mem_cons_self _ _
          · intro rec js h hmo
            simp [hg] at h
            subst h
            simp [hm] at hmo
        | ok js0 =>
          rw [forEach_cons_writeOk env r rp fs k0 v0 rest rec0 js0 hg hm (hW _ _)]
          refine ⟨?_, ?_, ?_⟩
          · intro e h
            simp [hg] at h
          · intro rec e h hme
            simp [hg] at h
            subst h
            simp [hm] at hme
          · intro rec js h hmo
            exact List.mem_cons_self _ _
    · cases hg : r.getRecord k0 with
      | error e0 =>
        rw [forEach_cons_getErr env r rp fs k0 v0 rest e0 hg]
        obtain ⟨p1, p2, p3⟩ := ih fs kv htail
        exact ⟨fun e h => List.mem_cons_of_mem _ (p1 e h),
          fun rec e h hm => List.mem_cons_of_mem _ (p2 rec e h hm),
          fun rec js h hm => List.mem_cons_of_mem _ (p3 rec js h hm)⟩
      | ok rec0 =>
        cases hm : env.marshalRecord rec0 with
        | error e0 =>
          rw [forEach_cons_marshalErr env r rp fs k0 v0 rest rec0 e0 hg hm]
          obtain ⟨p1, p2, p3⟩ := ih fs kv htail
          exact ⟨fun e h => List.mem_cons_of_mem _ (p1 e h),
            fun rec e h hme => List.mem_cons_of_mem _ (p2 rec e h hme),
            fun rec js h hme => List.mem_cons_of_mem _ (p3 rec js h hme)⟩
        | ok js0 =>
          rw [forEach_cons_writeOk env r rp fs k0 v0 rest rec0 js0 hg hm (hW _ _)]
          obtain ⟨p1, p2, p3⟩ := ih (fsWrite fs (rp ++ "/" ++ k0 ++ ".json") js0) kv htail
          exact ⟨fun e h => List.mem_cons_of_mem _ (p1 e h),
            fun rec e h hme => List.mem_cons_of_mem _ (p2 rec e h hme),
            fun rec js h hme => List.mem_cons_of_mem _ (p3 rec js h hme)⟩

/-- The keys actually written by the record loop form a subsequence of the
traversal keys: export follows traversal order, skips only omit keys. -/
theorem forEach_writtenKeys_sublist (env : Env) (r : Repo) (rp : String) :
    ∀ (l : List (String × Nat)) (fs : FS),
      List.Sublist (writtenKeys (forEachRecords env r rp fs l).2.1) (l.map Prod.fst) := by
  intro l
  induction l with
  | nil => intro fs; exact List.Sublist.refl _
  | cons kv rest ih =>
    intro fs
    obtain ⟨k, v⟩ := kv
    cases hg : r.getRecord k with
    | error e =>
      rw [forEach_cons_getErr env r rp fs k v rest e hg]
      exact List.Sublist.trans (ih fs) (List.sublist_cons_self _ _)
    | ok rec =>
      cases hm : env.marshalRecord rec with
      | error e =>
        rw [forEach_cons_marshalErr env r rp fs k v rest rec e hg hm]
        exact List.Sublist.trans (ih fs) (List.sublist_cons_self _ _)
      | ok js =>
        cases hw : env.writeFile (rp ++ "/" ++ k ++ ".json") js with
        | error e =>
          rw [forEach_cons_writeErr env r rp fs k v rest rec js e hg hm hw]
          exact List.nil_sublist _
        | ok u =>
          cases u
          rw [forEach_cons_writeOk env r rp fs k v rest rec js hg hm hw]
          exact List.Sublist.cons₂ _ (ih _)

/-- The record loop's result and trace do not depend on the filesystem
contents: only the oracles decide them. -/
theorem forEach_fs_irrelevant (env : Env) (r : Repo) (rp : String) :
    ∀ (l : List (String × Nat)) (fs fs' : FS),
      (forEachRecords env r rp fs l).1 = (forEachRecords env r rp fs' l).1 ∧
      (forEachRecords env r rp fs l).2.1 = (forEachRecords env r rp fs' l).2.1 := by
  intro l
  induction l with
  | nil => intro fs fs'; exact ⟨rfl, rfl⟩
  | cons kv rest ih =>
    intro fs fs'
    obtain ⟨k, v⟩ := kv
    cases hg : r.getRecord k with
    | error e =>
      rw [forEach_cons_getErr env r rp fs k v rest e hg,
        forEach_cons_getErr env r rp fs' k v rest e hg]
      exact ⟨(ih fs fs').1, by rw [(ih fs fs').2]⟩
    | ok rec =>
      cases hm : env.marshalRecord rec with
      | error e =>
        rw [forEach_cons_marshalErr env r rp fs k v rest rec e hg hm,
          forEach_cons_marshalErr env r rp fs' k v rest rec e hg hm]
        exact ⟨(ih fs fs').1, by rw [(ih fs fs').2]⟩
      | ok js =>
        cases hw : env.writeFile (rp ++ "/" ++ k ++ ".json") js with
        | error e =>
          rw [forEach_cons_writeErr env r rp fs k v rest rec js e hg hm hw,
            forEach_cons_writeErr env r rp fs' k v rest rec js e hg hm hw]
          exact ⟨rfl, rfl⟩
        | ok u =>
          cases u
          rw [forEach_cons_writeOk env r rp fs k v rest rec js hg hm hw,
            forEach_cons_writeOk env r rp fs' k v rest rec js hg hm hw]
          refine ⟨(ih _ _).1, by rw [(ih (fsWrite fs (rp ++ "/" ++ k ++ ".json") js)
            (fsWrite fs' (rp ++ "/" ++ k ++ ".json") js)).2]⟩

/-- Writing a file preserves the existence of every file. -/
theorem fsExists_fsWrite_of (fs : FS) (p q c : String) (h : fsExists fs p = true) :
    fsExists (fsWrite fs q c) p = true := by
  simp only [fsExists, fsLookup, fsWrite, List.lookup] at *
  cases hpq : (p == q) with
  | true => rfl
  | false => simpa [hpq] using h

/-- A freshly written file exists. -/
theorem fsExists_fsWrite_self (fs : FS) (p c : String) :
    fsExists (fsWrite fs p c) p = true := by
  simp [fsExists, fsLookup, fsWrite, List.lookup]

/-- Step equation: an already-present blob is skipped without a fetch. -/
theorem page_cons_exists (env : Env) (topDir did : String) (fs : FS)
    (c : String) (rest : List String)
    (hex : fsExists fs (topDir ++ "/" ++ c) = true) :
    processBlobPage env topDir did fs (c :: rest) =
      ((processBlobPage env topDir did fs rest).1,
       .blobSkipped c :: (processBlobPage env topDir did fs rest).2.1,
       (processBlobPage env topDir did fs rest).2.2) := by
  simp only [processBlobPage, hex, if_true]

/-- Step equation: an absent blob whose fetch fails aborts the page at once. -/
theorem page_cons_fetchErr (env : Env) (topDir did : String) (fs : FS)
    (c : String) (rest : List String) (e : String)
    (hex : fsExists fs (topDir ++ "/" ++ c) = false)
    (hg : env.getBlob c did = .error e) :
    processBlobPage env topDir did fs (c :: rest) =
      (.error e, [.blobFetched c], fs) := by
  simp only [processBlobPage, hex, Bool.false_eq_true, if_false, hg]

/-- Step equation: an absent blob whose write fails aborts the page. -/
theorem page_cons_writeErr (env : Env) (topDir did : String) (fs : FS)
    (c : String) (rest : List String) (bytes e : String)
    (hex : fsExists fs (topDir ++ "/" ++ c) = false)
    (hg : env.getBlob c did = .ok bytes)
    (hw : env.writeFile (topDir ++ "/" ++ c) bytes = .error e) :
    processBlobPage env topDir did fs (c :: rest) =
      (.error e, [.blobFetched c], fs) := by
  simp only [processBlobPage, hex, Bool.false_eq_true, if_false, hg, hw]

/-- Step equation: an absent blob fetched and written successfully. -/
theorem page_cons_fetchOk (env : Env) (topDir did : String) (fs : FS)
    (c : String) (rest : List String) (bytes : String)
    (hex : fsExists fs (topDir ++ "/" ++ c) = false)
    (hg : env.getBlob c did = .ok bytes)
    (hw : env.writeFile (topDir ++ "/" ++ c) bytes = .ok ()) :
    processBlobPage env topDir did fs (c :: rest) =
      ((processBlobPage env topDir did (fsWrite fs (topDir ++ "/" ++ c) bytes) rest).1,
       .blobFetched c :: .blobWritten c ::
         (processBlobPage env topDir did (fsWrite fs (topDir ++ "/" ++ c) bytes) rest).2.1,
       (processBlobPage env topDir did (fsWrite fs (topDir ++ "/" ++ c) bytes) rest).2.2) := by
  simp only [processBlobPage, hex, Bool.false_eq_true, if_false, hg, hw]

/-- Page processing only adds files. -/
theorem page_mono (env : Env) (topDir did : String) :
    ∀ (l : List String) (fs : FS) (p : String), fsExists fs p = true →
      fsExists (processBlobPage env topDir did fs l).2.2 p = true := by
  intro l
  induction l with
  | nil => intro fs p h; exact h
  | cons c rest ih =>
    intro fs p h
    cases hex : fsExists fs (topDir ++ "/" ++ c) with
    | true =>
      rw [page_cons_exists env topDir did fs c rest hex]
      exact ih fs p h
    | false =>
      cases hg : env.getBlob c did with
      | error e =>
        rw [page_cons_fetchErr env topDir did fs c rest e hex hg]
        exact h
      | ok bytes =>
        cases hw : env.writeFile (topDir ++ "/" ++ c) bytes with
        | error e =>
          rw [page_cons_writeErr env topDir did fs c rest bytes e hex hg hw]
          exact h
        | ok u =>
          cases u
          rw [page_cons_fetchOk env topDir did fs c rest bytes hex hg hw]
          exact ih _ p (fsExists_fsWrite_of fs p _ bytes h)

/-- After a page completes successfully, every listed blob exists locally. -/
theorem page_all_exist (env : Env) (topDir did : String) :
    ∀ (l : List String) (fs : FS),
      (processBlobPage env topDir did fs l).1 = .ok () →
      ∀ c ∈ l, fsExists (processBlobPage env topDir did fs l).2.2
        (topDir ++ "/" ++ c) = true := by
  intro l
  induction l with
  | nil => intro fs hok c hc; exact absurd hc (List.not_mem_nil c)
  | cons c0 rest ih =>
    intro fs hok c hc
    cases hex : fsExists fs (topDir ++ "/" ++ c0) with
    | true =>
      rw [page_cons_exists env topDir did fs c0 rest hex] at hok ⊢
      rcases List.mem_cons.mp hc with rfl | htail
      · exact page_mono env topDir did rest fs _ hex
      · exact ih fs hok c htail
    | false =>
      cases hg : env.getBlob c0 did with
      | error e =>
        rw [page_cons_fetchErr env topDir did fs c0 rest e hex hg] at hok
        exact absurd hok (by simp)
      | ok bytes =>
        cases hw : env.writeFile (topDir ++ "/" ++ c0) bytes with
        | error e =>
          rw [page_cons_writeErr env topDir did fs c0 rest bytes e hex hg hw] at hok
          exact absurd hok (by simp)
        | ok u =>
          cases u
          rw [page_cons_fetchOk env topDir did fs c0 rest bytes hex hg hw] at hok ⊢
          rcases List.mem_cons.mp hc with rfl | htail
          · exact page_mono env topDir did rest _ _ (fsExists_fsWrite_self fs _ bytes)
          · exact ih _ hok c htail

/-- A page all of whose blobs already exist is a pure sequence of skips. -/
theorem page_skipAll (env : Env) (topDir did : String) :
    ∀ (l : List String) (fs : FS),
      (∀ c ∈ l, fsExists fs (topDir ++ "/" ++ c) = true) →
      processBlobPage env topDir did fs l = (.ok (), l.map Event.blobSkipped, fs) := by
  intro l
  induction l with
  | nil => intro fs h; rfl
  | cons c rest ih =>
    intro fs h
    rw [page_cons_exists env topDir did fs c rest (h c (List.mem_cons_self c rest)),
      ih fs (fun c' hc' => h c' (List.mem_cons_of_mem c hc'))]
    rfl

/-- At most one fetch of any given content hash per page walk: none at all
when the hash already exists locally. -/
theorem page_count_le (env : Env) (topDir did cid : String) :
    ∀ (l : List String) (fs : FS),
      ((processBlobPage env topDir did fs l).2.1.count (Event.blobFetched cid)) ≤
        (if fsExists fs (topDir ++ "/" ++ cid) = true then 0 else 1) := by
  intro l
  induction l with
  | nil =>
    intro fs
    simp [processBlobPage]
  | cons c rest ih =>
    intro fs
    cases hex : fsExists fs (topDir ++ "/" ++ c) with
    | true =>
      rw [page_cons_exists env topDir did fs c rest hex]
      have step : ((Event.blobSkipped c :: (processBlobPage env topDir did fs rest).2.1).count
          (Event.blobFetched cid)) =
          ((processBlobPage env topDir did fs rest).2.1.count (Event.blobFetched cid)) := by
        rw [List.count_cons_of_ne (by simp)]
      calc ((Event.blobSkipped c :: (processBlobPage env topDir did fs rest).2.1).count
              (Event.blobFetched cid))
          = _ := step
        _ ≤ _ := ih fs
    | false =>
      cases hg : env.getBlob c did with
      | error e =>
        rw [page_cons_fetchErr env topDir did fs c rest e hex hg]
        by_cases hcc : c = cid
        · subst hcc
          simp [hex, List.count_cons]
        · simp [List.count_cons, hcc]
      | ok bytes =>
        cases hw : env.writeFile (topDir ++ "/" ++ c) bytes with
        | error e =>
          rw [page_cons_writeErr env topDir did fs c rest bytes e hex hg hw]
          by_cases hcc : c = cid
          · subst hcc
            simp [hex, List.count_cons]
          · simp [List.count_cons, hcc]
        | ok u =>
          cases u
          rw [page_cons_fetchOk env topDir did fs c rest bytes hex hg hw]
          by_cases hcc : c = cid
          · subst hcc
            have hrest := ih (fsWrite fs (topDir ++ "/" ++ c) bytes)
            rw [fsExists_fsWrite_self fs _ bytes] at hrest
            simp only [if_true] at hrest
            simp [hex, List.count_cons, Nat.le_antisymm hrest (Nat.zero_le _)]
          · have hrest := ih (fsWrite fs (topDir ++ "/" ++ c) bytes)
            have htail : ((processBlobPage env topDir did
                (fsWrite fs (topDir ++ "/" ++ c) bytes) rest).2.1.count
                (Event.blobFetched cid)) ≤ 1 := by
              exact hrest.trans (by split <;> omega)
            have hne1 : Event.blobFetched cid ≠ Event.blobFetched c := by
              intro hcontra
              exact hcc (Event.blobFetched.inj hcontra).symm
            rw [List.count_cons_of_ne hne1, List.count_cons_of_ne (by simp)]
            split
            · next hex2 =>
              have := page_mono env topDir did rest
              -- existing hash stays existing through the tail; reuse the bound
              have hrest2 := ih (fsWrite fs (topDir ++ "/" ++ c) bytes)
              rw [fsExists_fsWrite_of fs _ _ bytes hex2] at hrest2
              simpa using hrest2
            · exact htail

/-- Fetching a blob already seen in the same page walk never happens: once
the result is ok and a fetch of `cid` appears in the trace, the blob exists
in the final filesystem. -/
theorem page_fetched_exists (env : Env) (topDir did cid : String) :
    ∀ (l : List String) (fs : FS),
      (processBlobPage env topDir did fs l).1 = .ok () →
      Event.blobFetched cid ∈ (processBlobPage env topDir did fs l).2.1 →
      fsExists (processBlobPage env topDir did fs l).2.2 (topDir ++ "/" ++ cid) = true := by
  intro l
  induction l with
  | nil =>
    intro fs hok hmem
    exact absurd hmem (by simp [processBlobPage])
  | cons c rest ih =>
    intro fs hok hmem
    cases hex : fsExists fs (topDir ++ "/" ++ c) with
    | true =>
      rw [page_cons_exists env topDir did fs c rest hex] at hok hmem ⊢
      rcases List.mem_cons.mp hmem with heq | htail
      · exact absurd heq (by simp)
      · exact ih fs hok htail
    | false =>
      cases hg : env.getBlob c did with
      | error e =>
        rw [page_cons_fetchErr env topDir did fs c rest e hex hg] at hok
        exact absurd hok (by simp)
      | ok bytes =>
        cases hw : env.writeFile (topDir ++ "/" ++ c) bytes with
        | error e =>
          rw [page_cons_writeErr env topDir did fs c rest bytes e hex hg hw] at hok
          exact absurd hok (by simp)
        | ok u =>
          cases u
          rw [page_cons_fetchOk env topDir did fs c rest bytes hex hg hw] at hok hmem ⊢
          rcases List.mem_cons.mp hmem with heq | hmem2
          · have : c = cid := by
              cases heq
              rfl
            subst this
            exact page_mono env topDir did rest _ _ (fsExists_fsWrite_self fs _ bytes)
          · rcases List.mem_cons.mp hmem2 with heq | htail
            · exact absurd heq (by simp)
            · exact ih _ hok htail

/-- Step equation: a failing listing call ends the loop with its error. -/
theorem loop_succ_listErr (env : Env) (topDir did : String) (fuel : Nat)
    (cursor : String) (fs : FS) (e : String)
    (hL : env.listBlobs cursor did = .error e) :
    downloadBlobsLoop env topDir did (fuel + 1) cursor fs =
      (.error e, [.listCalled cursor], fs) := by
  simp only [downloadBlobsLoop, hL]

/-- Step equation: a failing page aborts the loop with the page's error. -/
theorem loop_succ_pageErr (env : Env) (topDir did : String) (fuel : Nat)
    (cursor : String) (fs : FS) (page : BlobPage) (e : String)
    (hL : env.listBlobs cursor did = .ok page)
    (hp : (processBlobPage env topDir did fs page.cids).1 = .error e) :
    downloadBlobsLoop env topDir did (fuel + 1) cursor fs =
      (.error e, .listCalled cursor :: (processBlobPage env topDir did fs page.cids).2.1,
       (processBlobPage env topDir did fs page.cids).2.2) := by
  simp only [downloadBlobsLoop, hL, hp]

/-- Step equation: an absent continuation cursor terminates the loop. -/
theorem loop_succ_doneNone (env : Env) (topDir did : String) (fuel : Nat)
    (cursor : String) (fs : FS) (page : BlobPage)
    (hL : env.listBlobs cursor did = .ok page)
    (hp : (processBlobPage env topDir did fs page.cids).1 = .ok ())
    (hc : page.cursor = none) :
    downloadBlobsLoop env topDir did (fuel + 1) cursor fs =
      (.ok (), .listCalled cursor :: (processBlobPage env topDir did fs page.cids).2.1,
       (processBlobPage env topDir did fs page.cids).2.2) := by
  simp only [downloadBlobsLoop, hL, hp, hc]

/-- Step equation: an empty continuation cursor terminates the loop. -/
theorem loop_succ_doneEmpty (env : Env) (topDir did : String) (fuel : Nat)
    (cursor : String) (fs : FS) (page : BlobPage)
    (hL : env.listBlobs cursor did = .ok page)
    (hp : (processBlobPage env topDir did fs page.cids).1 = .ok ())
    (hc : page.cursor = some "") :
    downloadBlobsLoop env topDir did (fuel + 1) cursor fs =
      (.ok (), .listCalled cursor :: (processBlobPage env topDir did fs page.cids).2.1,
       (processBlobPage env topDir did fs page.cids).2.2) := by
  simp [downloadBlobsLoop, hL, hp, hc]

/-- Step equation: a non-empty continuation cursor causes another iteration. -/
theorem loop_succ_next (env : Env) (topDir did : String) (fuel : Nat)
    (cursor : String) (fs : FS) (page : BlobPage) (c : String)
    (hL : env.listBlobs cursor did = .ok page)
    (hp : (processBlobPage env topDir did fs page.cids).1 = .ok ())
    (hc : page.cursor = some c) (hne : c ≠ "") :
    downloadBlobsLoop env topDir did (fuel + 1) cursor fs =
      ((downloadBlobsLoop env topDir did fuel c
          (processBlobPage env topDir did fs page.cids).2.2).1,
       .listCalled cursor :: (processBlobPage env topDir did fs page.cids).2.1 ++
         (downloadBlobsLoop env topDir did fuel c
           (processBlobPage env topDir did fs page.cids).2.2).2.1,
       (downloadBlobsLoop env topDir did fuel c
         (processBlobPage env topDir did fs page.cids).2.2).2.2) := by
  simp [downloadBlobsLoop, hL, hp, hc, hne]

/-- Every loop iteration, whatever the cursor, opens with its listing call. -/
theorem loop_trace_head (env : Env) (topDir did : String) (fuel : Nat)
    (cursor : String) (fs : FS) :
    ∃ tl, (downloadBlobsLoop env topDir did (fuel + 1) cursor fs).2.1 =
      .listCalled cursor :: tl := by
  cases hL : env.listBlobs cursor did with
  | error e =>
    rw [loop_succ_listErr env topDir did fuel cursor fs e hL]
    exact ⟨[], rfl⟩
  | ok page =>
    cases hp : (processBlobPage env topDir did fs page.cids).1 with
    | error e =>
      rw [loop_succ_pageErr env topDir did fuel cursor fs page e hL hp]
      exact ⟨_, rfl⟩
    | ok u =>
      cases u
      cases hc : page.cursor with
      | none =>
        rw [loop_succ_doneNone env topDir did fuel cursor fs page hL hp hc]
        exact ⟨_, rfl⟩
      | some c =>
        by_cases hne : c = ""
        · subst hne
          rw [loop_succ_doneEmpty env topDir did fuel cursor fs page hL hp hc]
          exact ⟨_, rfl⟩
        · rw [loop_succ_next env topDir did fuel cursor fs page c hL hp hc hne]
          exact ⟨_, rfl⟩

/-- The pagination loop only adds files. -/
theorem loop_mono (env : Env) (topDir did : String) :
    ∀ (fuel : Nat) (cursor : String) (fs : FS) (p : String), fsExists fs p = true →
      fsExists (downloadBlobsLoop env topDir did fuel cursor fs).2.2 p = true := by
  intro fuel
  induction fuel with
  | zero => intro cursor fs p h; exact h
  | succ n ih =>
    intro cursor fs p h
    cases hL : env.listBlobs cursor did with
    | error e =>
      rw [loop_succ_listErr env topDir did n cursor fs e hL]
      exact h
    | ok page =>
      cases hp : (processBlobPage env topDir did fs page.cids).1 with
      | error e =>
        rw [loop_succ_pageErr env topDir did n cursor fs page e hL hp]
        exact page_mono env topDir did page.cids fs p h
      | ok u =>
        cases u
        cases hc : page.cursor with
        | none =>
          rw [loop_succ_doneNone env topDir did n cursor fs page hL hp hc]
          exact page_mono env topDir did page.cids fs p h
        | some c =>
          by_cases hne : c = ""
          · subst hne
            rw [loop_succ_doneEmpty env topDir did n cursor fs page hL hp hc]
            exact page_mono env topDir did page.cids fs p h
          · rw [loop_succ_next env topDir did n cursor fs page c hL hp hc hne]
            exact ih c _ p (page_mono env topDir did page.cids fs p h)

/-- At most one fetch of any given content hash per loop run: none when the
hash already exists locally when the run starts. -/
theorem loop_count_le (env : Env) (topDir did cid : String) :
    ∀ (fuel : Nat) (cursor : String) (fs : FS),
      ((downloadBlobsLoop env topDir did fuel cursor fs).2.1.count
        (Event.blobFetched cid)) ≤
        (if fsExists fs (topDir ++ "/" ++ cid) = true then 0 else 1) := by
  intro fuel
  induction fuel with
  | zero =>
    intro cursor fs
    simp [downloadBlobsLoop]
  | succ n ih =>
    intro cursor fs
    cases hL : env.listBlobs cursor did with
    | error e =>
      rw [loop_succ_listErr env topDir did n cursor fs e hL]
      simp [List.count_cons]
    | ok page =>
      cases hp : (processBlobPage env topDir did fs page.cids).1 with
      | error e =>
        rw [loop_succ_pageErr env topDir did n cursor fs page e hL hp]
        rw [List.count_cons_of_ne (by simp)]
        exact page_count_le env topDir did cid page.cids fs
      | ok u =>
        cases u
        cases hc : page.cursor with
        | none =>
          rw [loop_succ_doneNone env topDir did n cursor fs page hL hp hc]
          rw [List.count_cons_of_ne (by simp)]
          exact page_count_le env topDir did cid page.cids fs
        | some c =>
          by_cases hne : c = ""
          · subst hne
            rw [loop_succ_doneEmpty env topDir did n cursor fs page hL hp hc]
            rw [List.count_cons_of_ne (by simp)]
            exact page_count_le env topDir did cid page.cids fs
          · rw [loop_succ_next env topDir did n cursor fs page c hL hp hc hne]
            dsimp only
            rw [List.count_append, List.count_cons_of_ne (by simp)]
            have hpage := page_count_le env topDir did cid page.cids fs
            have hrec := ih c (processBlobPage env topDir did fs page.cids).2.2
            cases hex : fsExists fs (topDir ++ "/" ++ cid) with
            | true =>
              rw [hex] at hpage
              rw [page_mono env topDir did page.cids fs _ hex] at hrec
              simp only [if_true] at hpage hrec
              simp [hex, Nat.le_antisymm hpage (Nat.zero_le _),
                Nat.le_antisymm hrec (Nat.zero_le _)]
            | false =>
              rw [hex] at hpage
              by_cases hmem : Event.blobFetched cid ∈
                  (processBlobPage env topDir did fs page.cids).2.1
              · have hfin := page_fetched_exists env topDir did cid page.cids fs hp hmem
                rw [hfin] at hrec
                simp only [if_true] at hrec
                have : ((downloadBlobsLoop env topDir did n c
                    (processBlobPage env topDir did fs page.cids).2.2).2.1.count
                    (Event.blobFetched cid)) = 0 := Nat.le_antisymm hrec (Nat.zero_le _)
                rw [this]
                simpa [hex] using hpage
              · have hzero : ((processBlobPage env topDir did fs page.cids).2.1.count
                    (Event.blobFetched cid)) = 0 := List.count_eq_zero.mpr hmem
                rw [hzero]
                have : ((downloadBlobsLoop env topDir did n c
                    (processBlobPage env topDir did fs page.cids).2.2).2.1.count
                    (Event.blobFetched cid)) ≤ 1 := hrec.trans (by split <;> omega)
                simpa [hex] using this

/-- Re-running the loop against unchanged oracles, starting from any
filesystem containing everything a first successful run left behind,
performs no fetch at all and changes nothing. -/
theorem loop_rerun (env : Env) (topDir did : String) :
    ∀ (fuel : Nat) (cursor : String) (fs fs2 : FS),
      (downloadBlobsLoop env topDir did fuel cursor fs).1 = .ok () →
      (∀ p, fsExists (downloadBlobsLoop env topDir did fuel cursor fs).2.2 p = true →
        fsExists fs2 p = true) →
      (downloadBlobsLoop env topDir did fuel cursor fs2).1 = .ok () ∧
      (downloadBlobsLoop env topDir did fuel cursor fs2).2.2 = fs2 ∧
      ∀ cid, Event.blobFetched cid ∉ (downloadBlobsLoop env topDir did fuel cursor fs2).2.1 := by
  intro fuel
  induction fuel with
  | zero =>
    intro cursor fs fs2 h1 hsup
    exact absurd h1 (by simp [downloadBlobsLoop])
  | succ n ih =>
    intro cursor fs fs2 h1 hsup
    cases hL : env.listBlobs cursor did with
    | error e =>
      rw [loop_succ_listErr env topDir did n cursor fs e hL] at h1
      exact absurd h1 (by simp)
    | ok page =>
      cases hp : (processBlobPage env topDir did fs page.cids).1 with
      | error e =>
        rw [loop_succ_pageErr env topDir did n cursor fs page e hL hp] at h1
        exact absurd h1 (by simp)
      | ok u =>
        cases u
        have hall := page_all_exist env topDir did page.cids fs hp
        cases hc : page.cursor with
        | none =>
          rw [loop_succ_doneNone env topDir did n cursor fs page hL hp hc] at hsup
          have hex2 : ∀ c ∈ page.cids, fsExists fs2 (topDir ++ "/" ++ c) = true :=
            fun c hcmem => hsup _ (hall c hcmem)
          have hpage2 := page_skipAll env topDir did page.cids fs2 hex2
          have hstep := loop_succ_doneNone env topDir did n cursor fs2 page hL
            (by rw [hpage2]) hc
          rw [hpage2] at hstep
          rw [hstep]
          refine ⟨rfl, rfl, fun cid => ?_⟩
          simp [List.mem_map]
        | some c =>
          by_cases hne : c = ""
          · subst hne
            rw [loop_succ_doneEmpty env topDir did n cursor fs page hL hp hc] at hsup
            have hex2 : ∀ c' ∈ page.cids, fsExists fs2 (topDir ++ "/" ++ c') = true :=
              fun c' hcmem => hsup _ (hall c' hcmem)
            have hpage2 := page_skipAll env topDir did page.cids fs2 hex2
            have hstep := loop_succ_doneEmpty env topDir did n cursor fs2 page hL
              (by rw [hpage2]) hc
            rw [hpage2] at hstep
            rw [hstep]
            refine ⟨rfl, rfl, fun cid => ?_⟩
            simp [List.mem_map]
          · rw [loop_succ_next env topDir did n cursor fs page c hL hp hc hne] at h1 hsup
            have hrec1 : (downloadBlobsLoop env topDir did n c
                (processBlobPage env topDir did fs page.cids).2.2).1 = .ok () := h1
            have hsup' : ∀ p, fsExists (downloadBlobsLoop env topDir did n c
                (processBlobPage env topDir did fs page.cids).2.2).2.2 p = true →
                fsExists fs2 p = true := hsup
            have hex2 : ∀ c' ∈ page.cids, fsExists fs2 (topDir ++ "/" ++ c') = true :=
              fun c' hcmem => hsup' _ (loop_mono env topDir did n c _ _ (hall c' hcmem))
            obtain ⟨hr1, hr2, hr3⟩ := ih c
              (processBlobPage env topDir did fs page.cids).2.2 fs2 hrec1 hsup'
            have hpage2 := page_skipAll env topDir did page.cids fs2 hex2
            have hstep := loop_succ_next env topDir did n cursor fs2 page c hL
              (by rw [hpage2]) hc hne
            rw [hpage2] at hstep
            rw [hstep]
            refine ⟨hr1, hr2, fun cid => ?_⟩
            intro hmem
            rcases List.mem_cons.mp hmem with heq | hmem2
            · exact absurd heq (by simp)
            · rcases List.mem_append.mp hmem2 with hmem3 | hmem4
              · rcases List.mem_map.mp hmem3 with ⟨a, _, ha⟩
                exact absurd ha (by simp)
              · exact hr3 cid hmem4

theorem writtenKeys_cons_processing (s : String) (tr : List Event) :
    writtenKeys (.processing s :: tr) = writtenKeys tr := rfl

theorem writtenKeys_cons_carFetched (s : String) (tr : List Event) :
    writtenKeys (.carFetched s :: tr) = writtenKeys tr := rfl

theorem writtenKeys_cons_carWritten (s : String) (tr : List Event) :
    writtenKeys (.carWritten s :: tr) = writtenKeys tr := rfl

theorem writtenKeys_cons_listCalled (s : String) (tr : List Event) :
    writtenKeys (.listCalled s :: tr) = writtenKeys tr := rfl

theorem writtenKeys_cons_blobSkipped (s : String) (tr : List Event) :
    writtenKeys (.blobSkipped s :: tr) = writtenKeys tr := rfl

theorem writtenKeys_cons_blobFetched (s : String) (tr : List Event) :
    writtenKeys (.blobFetched s :: tr) = writtenKeys tr := rfl

theorem writtenKeys_cons_blobWritten (s : String) (tr : List Event) :
    writtenKeys (.blobWritten s :: tr) = writtenKeys tr := rfl

/-- Downloading the CAR never emits record events. -/
theorem writtenKeys_downloadRepo (env : Env) (fs : FS) (ident : Identity)
    (carPath : String) :
    writtenKeys (downloadRepo env fs ident carPath).2.1 = [] := by
  unfold downloadRepo
  by_cases hpds : ident.pdsEndpoint = ""
  · rw [if_pos hpds]
    rfl
  · rw [if_neg hpds]
    cases hs : env.syncGetRepo ident.did with
    | error e => simp only [hs]; rfl
    | ok bytes =>
      simp only [hs]
      cases hw : env.writeFile carPath bytes with
      | error e => simp only [hw]; rfl
      | ok u => cases u; simp only [hw]; rfl

/-- Blob page processing never emits record events. -/
theorem writtenKeys_page (env : Env) (topDir did : String) :
    ∀ (l : List String) (fs : FS),
      writtenKeys (processBlobPage env topDir did fs l).2.1 = [] := by
  intro l
  induction l with
  | nil => intro fs; rfl
  | cons c rest ih =>
    intro fs
    cases hex : fsExists fs (topDir ++ "/" ++ c) with
    | true =>
      rw [page_cons_exists env topDir did fs c rest hex]
      exact ih fs
    | false =>
      cases hg : env.getBlob c did with
      | error e => rw [page_cons_fetchErr env topDir did fs c rest e hex hg]; rfl
      | ok bytes =>
        cases hw : env.writeFile (topDir ++ "/" ++ c) bytes with
        | error e => rw [page_cons_writeErr env topDir did fs c rest bytes e hex hg hw]; rfl
        | ok u =>
          cases u
          rw [page_cons_fetchOk env topDir did fs c rest bytes hex hg hw]
          exact ih _

/-- The blob pagination loop never emits record events. -/
theorem writtenKeys_loop (env : Env) (topDir did : String) :
    ∀ (fuel : Nat) (cursor : String) (fs : FS),
      writtenKeys (downloadBlobsLoop env topDir did fuel cursor fs).2.1 = [] := by
  intro fuel
  induction fuel with
  | zero => intro cursor fs; rfl
  | succ n ih =>
    intro cursor fs
    cases hL : env.listBlobs cursor did with
    | error e => rw [loop_succ_listErr env topDir did n cursor fs e hL]; rfl
    | ok page =>
      cases hp : (processBlobPage env topDir did fs page.cids).1 with
      | error e =>
        rw [loop_succ_pageErr env topDir did n cursor fs page e hL hp]
        exact writtenKeys_page env topDir did page.cids fs
      | ok u =>
        cases u
        cases hc : page.cursor with
        | none =>
          rw [loop_succ_doneNone env topDir did n cursor fs page hL hp hc]
          exact writtenKeys_page env topDir did page.cids fs
        | some c =>
          by_cases hne : c = ""
          · subst hne
            rw [loop_succ_doneEmpty env topDir did n cursor fs page hL hp hc]
            exact writtenKeys_page env topDir did page.cids fs
          · rw [loop_succ_next env topDir did n cursor fs page c hL hp hc hne]
            dsimp only
            rw [writtenKeys_append, writtenKeys_cons_listCalled,
              writtenKeys_page env topDir did page.cids fs, ih]
            rfl

/-- `downloadBlobs` never emits record events. -/
theorem writtenKeys_downloadBlobs (env : Env) (fs : FS) (ident : Identity)
    (recordsPath : String) (fuel : Nat) :
    writtenKeys (downloadBlobs env fs ident recordsPath fuel).2.1 = [] := by
  unfold downloadBlobs
  split
  · rfl
  · exact writtenKeys_loop env (recordsPath ++ "/_blob") ident.did fuel "" fs

/-- Unfolding of `processRepo` when every stage up to blob sync succeeds and
blob downloading is enabled. -/
theorem processRepo_eq_blobs (env : Env) (config : Config) (fuel : Nat) (fs : FS)
    (did atid : String) (ident : Identity)
    (hparse : env.parseAtIdentifier did = .ok atid)
    (hlook : env.lookup atid = .ok ident)
    (hdl : (downloadRepo env fs ident
      (config.carsDir ++ "/" ++ ident.did ++ ".car")).1 = .ok ())
    (hup : (unpackRecords env
      (downloadRepo env fs ident (config.carsDir ++ "/" ++ ident.did ++ ".car")).2.2
      (config.carsDir ++ "/" ++ ident.did ++ ".car")
      (config.recordsDir ++ "/" ++ ident.did)).1 = .ok ())
    (hcfg : config.downloadBlobs = true) :
    processRepo env config fuel fs did =
      ((downloadBlobs env
          (unpackRecords env
            (downloadRepo env fs ident (config.carsDir ++ "/" ++ ident.did ++ ".car")).2.2
            (config.carsDir ++ "/" ++ ident.did ++ ".car")
            (config.recordsDir ++ "/" ++ ident.did)).2.2
          ident (config.recordsDir ++ "/" ++ ident.did) fuel).1,
       .processing atid ::
         (downloadRepo env fs ident (config.carsDir ++ "/" ++ ident.did ++ ".car")).2.1 ++
         (unpackRecords env
           (downloadRepo env fs ident (config.carsDir ++ "/" ++ ident.did ++ ".car")).2.2
           (config.carsDir ++ "/" ++ ident.did ++ ".car")
           (config.recordsDir ++ "/" ++ ident.did)).2.1 ++
         (downloadBlobs env
           (unpackRecords env
             (downloadRepo env fs ident (config.carsDir ++ "/" ++ ident.did ++ ".car")).2.2
             (config.carsDir ++ "/" ++ ident.did ++ ".car")
             (config.recordsDir ++ "/" ++ ident.did)).2.2
           ident (config.recordsDir ++ "/" ++ ident.did) fuel).2.1,
       (downloadBlobs env
         (unpackRecords env
           (downloadRepo env fs ident (config.carsDir ++ "/" ++ ident.did ++ ".car")).2.2
           (config.carsDir ++ "/" ++ ident.did ++ ".car")
           (config.recordsDir ++ "/" ++ ident.did)).2.2
         ident (config.recordsDir ++ "/" ++ ident.did) fuel).2.2) := by
  simp only [processRepo, hparse, hlook, hdl, hup, hcfg, if_true]

/-! Claims. -/

/-- C8: the identifier source reads one repository identifier per input line,
ignores blank (whitespace-only) lines, performs no deduplication, and returns
the identifiers in file order: the result is exactly the non-blank lines of
the file, in order, duplicates included, each trimmed of surrounding
whitespace. -/
theorem c8_identifier_source (env : Env) (filename content : String)
    (h : env.readFile filename = .ok content) :
    readDIDsFromFile env filename =
      .ok (((splitLines content).filter (fun l => trimSpace l != "")).map trimSpace) := by
  have key : ∀ (ls acc : List String),
      ls.foldl appendDIDLine acc =
      acc ++ (ls.filter (fun l => trimSpace l != "")).map trimSpace := by
    intro ls
    induction ls with
    | nil => intro acc; simp
    | cons x xs ih =>
      intro acc
      rw [List.foldl_cons]
      by_cases hx : trimSpace x = ""
      · have hstep : appendDIDLine acc x = acc := by simp [appendDIDLine, hx]
        rw [hstep, ih]
        simp [List.filter_cons, hx]
      · have hstep : appendDIDLine acc x = acc ++ [trimSpace x] := by
          simp [appendDIDLine, hx]
        rw [hstep, ih]
        simp [List.filter_cons, hx]
  simp only [readDIDsFromFile, h, parseDIDLines]
  rw [key]
  simp

/-- Witness for C8 on the file contents "a\n\na\n b \na". -/
theorem c8_identifier_source_witness :
    readDIDsFromFile { idleEnv with readFile := fun _ => .ok "a\n\na\n b \na" } "dids.txt" =
      .ok (((splitLines "a\n\na\n b \na").filter (fun l => trimSpace l != "")).map trimSpace) :=
  c8_identifier_source _ "dids.txt" "a\n\na\n b \na" rfl

/-- C3: within one repository identifier's extraction, the signed commit is
always exported before any record: whenever the trace of `unpackRecords`
contains a record-written event, the trace starts with the commit-written
event. -/
theorem c3_commit_export_precedes_records (env : Env) (fs : FS)
    (carPath recordsPath k : String)
    (h : Event.recordWritten k ∈ (unpackRecords env fs carPath recordsPath).2.1) :
    ∃ tl, (unpackRecords env fs carPath recordsPath).2.1 =
      Event.commitWritten (recordsPath ++ "/_commit.json") :: tl := by
  simp only [unpackRecords] at h ⊢
  cases h1 : fsLookup fs carPath with
  | none => simp [h1] at h
  | some car =>
    simp only [h1] at h ⊢
    cases h2 : env.readRepoFromCar car with
    | error e => simp [h2] at h
    | ok r =>
      simp only [h2] at h ⊢
      cases h3 : env.marshalCommit r.signedCommit with
      | error e => simp [h3] at h
      | ok cj =>
        simp only [h3] at h ⊢
        cases h4 : env.writeFile (recordsPath ++ "/_commit.json") cj with
        | error e => simp [h4] at h
        | ok u =>
          cases u
          simp only [h4] at h ⊢
          cases h5 : mstTraverse r.mst with
          | none =>
            simp only [h5]
            exact ⟨[], rfl⟩
          | some ks =>
            simp only [h5]
            exact ⟨_, rfl⟩

/-- Witness for C3: in the sample environment the record "a/b" is written and
the trace indeed starts with the commit export. -/
theorem c3_commit_export_precedes_records_witness :
    ∃ tl, (unpackRecords sampleEnv [("cars/x.car", "carbytes")] "cars/x.car" "rec").2.1 =
      Event.commitWritten ("rec" ++ "/_commit.json") :: tl :=
  c3_commit_export_precedes_records sampleEnv [("cars/x.car", "carbytes")]
    "cars/x.car" "rec" "a/b" (by decide)

/-- C1: during record extraction for one identifier, a record whose fetch or
deserialization fails is reported (a skip warning) and skipped, extraction
completes (`.ok`), and every record whose own stages succeed is still written
to the output. -/
theorem c1_record_failures_skipped_others_written (env : Env) (fs : FS)
    (carPath recordsPath car : String) (r : Repo) (cj : String)
    (ks : List (String × Nat))
    (hW : ∀ p c, env.writeFile p c = .ok ())
    (h1 : fsLookup fs carPath = some car)
    (h2 : env.readRepoFromCar car = .ok r)
    (h3 : env.marshalCommit r.signedCommit = .ok cj)
    (h5 : mstTraverse r.mst = some ks) :
    (unpackRecords env fs carPath recordsPath).1 = .ok () ∧
    ∀ kv ∈ ks,
      (∀ e, r.getRecord kv.1 = .error e →
        Event.recordSkipped kv.1 ∈ (unpackRecords env fs carPath recordsPath).2.1) ∧
      (∀ rec e, r.getRecord kv.1 = .ok rec → env.marshalRecord rec = .error e →
        Event.recordSkipped kv.1 ∈ (unpackRecords env fs carPath recordsPath).2.1) ∧
      (∀ rec js, r.getRecord kv.1 = .ok rec → env.marshalRecord rec = .ok js →
        Event.recordWritten kv.1 ∈ (unpackRecords env fs carPath recordsPath).2.1) := by
  rw [unpackRecords_eq env fs carPath recordsPath car r cj ks h1 h2 h3 (hW _ _) h5]
  refine ⟨forEach_ok_of_writeOk env r recordsPath hW ks _, fun kv hmem => ?_⟩
  obtain ⟨p1, p2, p3⟩ := forEach_mem_results env r recordsPath hW ks
    (fsWrite fs (recordsPath ++ "/_commit.json") cj) kv hmem
  exact ⟨fun e h => List.mem_cons_of_mem _ (p1 e h),
    fun rec e h hm => List.mem_cons_of_mem _ (p2 rec e h hm),
    fun rec js h hm => List.mem_cons_of_mem _ (p3 rec js h hm)⟩

/-- Step equation: a failing identifier is reported and the loop continues. -/
theorem runLoop_cons_err (env : Env) (config : Config) (fuel : Nat) (fs : FS)
    (d : String) (rest : List String) (e : String)
    (h : (processRepo env config fuel fs d).1 = .error e) :
    runLoop env config fuel fs (d :: rest) =
      ((processRepo env config fuel fs d).2.1 ++ .errorReported d ::
        (runLoop env config fuel (processRepo env config fuel fs d).2.2 rest).1,
       (runLoop env config fuel (processRepo env config fuel fs d).2.2 rest).2) := by
  simp only [runLoop, h]

/-- Step equation: a successful identifier, then the rest of the batch. -/
theorem runLoop_cons_ok (env : Env) (config : Config) (fuel : Nat) (fs : FS)
    (d : String) (rest : List String)
    (h : (processRepo env config fuel fs d).1 = .ok ()) :
    runLoop env config fuel fs (d :: rest) =
      ((processRepo env config fuel fs d).2.1 ++
        (runLoop env config fuel (processRepo env config fuel fs d).2.2 rest).1,
       (runLoop env config fuel (processRepo env config fuel fs d).2.2 rest).2) := by
  simp only [runLoop, h]

/-- The batch loop processes a concatenation by processing both halves,
whatever results the identifiers of the first half produced. -/
theorem runLoop_append (env : Env) (config : Config) (fuel : Nat) :
    ∀ (l1 l2 : List String) (fs : FS),
      runLoop env config fuel fs (l1 ++ l2) =
        ((runLoop env config fuel fs l1).1 ++
          (runLoop env config fuel (runLoop env config fuel fs l1).2 l2).1,
         (runLoop env config fuel (runLoop env config fuel fs l1).2 l2).2) := by
  intro l1
  induction l1 with
  | nil => intro l2 fs; rfl
  | cons d rest ih =>
    intro l2 fs
    cases hd : (processRepo env config fuel fs d).1 with
    | error e =>
      rw [List.cons_append, runLoop_cons_err env config fuel fs d (rest ++ l2) e hd,
        runLoop_cons_err env config fuel fs d rest e hd]
      rw [ih l2 (processRepo env config fuel fs d).2.2]
      dsimp only
      rw [List.append_assoc, List.cons_append]
    | ok u =>
      cases u
      rw [List.cons_append, runLoop_cons_ok env config fuel fs d (rest ++ l2) hd,
        runLoop_cons_ok env config fuel fs d rest hd]
      rw [ih l2 (processRepo env config fuel fs d).2.2]
      dsimp only
      rw [List.append_assoc]

/-- C2: the batch driver catches and reports a failure of any one identifier
and proceeds with every remaining identifier: `run` succeeds regardless, and
its trace is the first identifiers' traces, then the distinguished
identifier's trace followed by an error report exactly when its pipeline
failed, then the full trace of all remaining identifiers. -/
theorem c2_batch_isolates_identifier_failures (env : Env) (config : Config)
    (fuel : Nat) (fs : FS) (content : String) (ds1 : List String) (d : String)
    (ds2 : List String)
    (hE : ensureDirectories env config = .ok ())
    (hR : env.readFile config.didsFile = .ok content)
    (hP : parseDIDLines content = ds1 ++ d :: ds2) :
    (run env config fuel fs).1 = .ok () ∧
    (run env config fuel fs).2.1 =
      (runLoop env config fuel fs ds1).1 ++
      ((processRepo env config fuel (runLoop env config fuel fs ds1).2 d).2.1 ++
        ((match (processRepo env config fuel (runLoop env config fuel fs ds1).2 d).1 with
          | .error _ => [Event.errorReported d]
          | .ok _ => []) ++
         (runLoop env config fuel
           (processRepo env config fuel (runLoop env config fuel fs ds1).2 d).2.2
           ds2).1)) := by
  have hrun : run env config fuel fs =
      (.ok (), (runLoop env config fuel fs (ds1 ++ d :: ds2)).1,
       (runLoop env config fuel fs (ds1 ++ d :: ds2)).2) := by
    simp only [run, hE, getActivatedDIDs, readDIDsFromFile, hR, hP]
  rw [hrun]
  refine ⟨rfl, ?_⟩
  rw [runLoop_append env config fuel ds1 (d :: ds2) fs]
  dsimp only
  cases hd : (processRepo env config fuel (runLoop env config fuel fs ds1).2 d).1 with
  | error e =>
    rw [runLoop_cons_err env config fuel (runLoop env config fuel fs ds1).2 d ds2 e hd]
    rfl
  | ok u =>
    cases u
    rw [runLoop_cons_ok env config fuel (runLoop env config fuel fs ds1).2 d ds2 hd]
    rfl

/-- A batch of three identifiers whose second fails identity resolution. -/
def batchEnv : Env :=
  { sampleEnv with
    readFile := fun _ => .ok "did:plc:w\nbad:did\ndid:plc:w\n"
    lookup := fun atid =>
      if atid = "bad:did" then .error "unresolved identity"
      else .ok { did := "did:plc:w", pdsEndpoint := "https://pds.example" } }

/-- Configuration with blob downloading disabled. -/
def plainConfig : Config where
  downloadBlobs := false
  carsDir := "cars"
  recordsDir := "records"
  didsFile := "dids.txt"

/-- Witness for C2: identifiers one and three fully process, the failure of
the second is reported, and the run still returns success. -/
theorem c2_batch_isolates_identifier_failures_witness :
    (run batchEnv plainConfig 0 []).1 = .ok () ∧
    (run batchEnv plainConfig 0 []).2.1 =
      (runLoop batchEnv plainConfig 0 [] ["did:plc:w"]).1 ++
      ((processRepo batchEnv plainConfig 0
          (runLoop batchEnv plainConfig 0 [] ["did:plc:w"]).2 "bad:did").2.1 ++
        ((match (processRepo batchEnv plainConfig 0
            (runLoop batchEnv plainConfig 0 [] ["did:plc:w"]).2 "bad:did").1 with
          | .error _ => [Event.errorReported "bad:did"]
          | .ok _ => []) ++
         (runLoop batchEnv plainConfig 0
           (processRepo batchEnv plainConfig 0
             (runLoop batchEnv plainConfig 0 [] ["did:plc:w"]).2 "bad:did").2.2
           ["did:plc:w"]).1)) :=
  c2_batch_isolates_identifier_failures batchEnv plainConfig 0 []
    "did:plc:w\nbad:did\ndid:plc:w\n" ["did:plc:w"] "bad:did" ["did:plc:w"]
    rfl rfl (by decide)

/-- C10: archive acquisition is not fetch-if-absent: even when a CAR file for
the identifier already exists from a previous run, `downloadRepo` fetches the
repository over the network and overwrites the local file with the fetched
bytes. -/
theorem c10_downloadRepo_always_fetches_and_overwrites (env : Env) (fs : FS)
    (ident : Identity) (carPath bytes old : String)
    (hpds : ident.pdsEndpoint ≠ "")
    (hfetch : env.syncGetRepo ident.did = .ok bytes)
    (hw : env.writeFile carPath bytes = .ok ())
    (_hold : fsLookup fs carPath = some old) :
    downloadRepo env fs ident carPath =
      (.ok (), [.carFetched ident.did, .carWritten carPath],
       fsWrite fs carPath bytes) ∧
    fsLookup (downloadRepo env fs ident carPath).2.2 carPath = some bytes := by
  have h1 : downloadRepo env fs ident carPath =
      (.ok (), [.carFetched ident.did, .carWritten carPath],
       fsWrite fs carPath bytes) := by
    unfold downloadRepo
    rw [if_neg hpds]
    simp only [hfetch, hw]
  refine ⟨h1, ?_⟩
  rw [h1]
  simp [fsLookup, fsWrite, List.lookup]

/-- Witness for C10: a stale CAR file is present, and the download still
fetches and overwrites it with the fresh bytes. -/
theorem c10_downloadRepo_always_fetches_and_overwrites_witness :
    downloadRepo sampleEnv [("cars/did:plc:w.car", "stalebytes")]
      { did := "did:plc:w", pdsEndpoint := "https://pds.example" } "cars/did:plc:w.car" =
      (.ok (), [.carFetched "did:plc:w", .carWritten "cars/did:plc:w.car"],
       fsWrite [("cars/did:plc:w.car", "stalebytes")] "cars/did:plc:w.car" "carbytes") ∧
    fsLookup (downloadRepo sampleEnv [("cars/did:plc:w.car", "stalebytes")]
      { did := "did:plc:w", pdsEndpoint := "https://pds.example" }
      "cars/did:plc:w.car").2.2 "cars/did:plc:w.car" = some "carbytes" :=
  c10_downloadRepo_always_fetches_and_overwrites sampleEnv
    [("cars/did:plc:w.car", "stalebytes")]
    { did := "did:plc:w", pdsEndpoint := "https://pds.example" }
    "cars/did:plc:w.car" "carbytes" "stalebytes" (by decide) rfl rfl (by decide)

/-- C7: the blob pagination loop terminates exactly when the listing returns
an absent (nil) or empty continuation cursor, and a non-empty cursor always
causes another listing call: the trace then continues with the next
listing event. -/
theorem c7_pagination_cursor_termination (env : Env) (topDir did : String)
    (fuel : Nat) (cursor : String) (fs : FS) (page : BlobPage)
    (hL : env.listBlobs cursor did = .ok page)
    (hp : (processBlobPage env topDir did fs page.cids).1 = .ok ()) :
    ((page.cursor = none ∨ page.cursor = some "") →
      downloadBlobsLoop env topDir did (fuel + 1) cursor fs =
        (.ok (), .listCalled cursor :: (processBlobPage env topDir did fs page.cids).2.1,
         (processBlobPage env topDir did fs page.cids).2.2)) ∧
    (∀ c, page.cursor = some c → c ≠ "" →
      ∃ tl, (downloadBlobsLoop env topDir did (fuel + 2) cursor fs).2.1 =
        (.listCalled cursor :: (processBlobPage env topDir did fs page.cids).2.1) ++
          .listCalled c :: tl) := by
  constructor
  · intro hc
    rcases hc with hc | hc
    · exact loop_succ_doneNone env topDir did fuel cursor fs page hL hp hc
    · exact loop_succ_doneEmpty env topDir did fuel cursor fs page hL hp hc
  · intro c hc hne
    rw [loop_succ_next env topDir did (fuel + 1) cursor fs page c hL hp hc hne]
    obtain ⟨tl, htl⟩ := loop_trace_head env topDir did fuel c
      (processBlobPage env topDir did fs page.cids).2.2
    exact ⟨tl, by rw [htl]⟩

/-- An identity with a usable PDS endpoint. -/
def blobIdent : Identity where
  did := "did:plc:w"
  pdsEndpoint := "https://x"

/-- Environment serving a two-page blob listing: page one lists "b1" with
continuation cursor "p2", page two lists "b2" with no continuation. -/
def pagedEnv : Env :=
  { idleEnv with
    listBlobs := fun cursor _ =>
      if cursor = "" then .ok { cids := ["b1"], cursor := some "p2" }
      else .ok { cids := ["b2"], cursor := none }
    getBlob := fun _ _ => .ok "blob" }

/-- Witness for C7 on `pagedEnv`: the first page's non-empty cursor "p2"
causes a second listing call; the second page's absent cursor ends the loop. -/
theorem c7_pagination_cursor_termination_witness :
    ((some "p2" = none ∨ some "p2" = some "") →
      downloadBlobsLoop pagedEnv "t" "did:plc:w" 3 "" [] =
        (.ok (), .listCalled "" ::
          (processBlobPage pagedEnv "t" "did:plc:w" [] ["b1"]).2.1,
         (processBlobPage pagedEnv "t" "did:plc:w" [] ["b1"]).2.2)) ∧
    (∀ c, some "p2" = some c → c ≠ "" →
      ∃ tl, (downloadBlobsLoop pagedEnv "t" "did:plc:w" 4 "" []).2.1 =
        (.listCalled "" :: (processBlobPage pagedEnv "t" "did:plc:w" [] ["b1"]).2.1) ++
          .listCalled c :: tl) :=
  c7_pagination_cursor_termination pagedEnv "t" "did:plc:w" 2 "" []
    { cids := ["b1"], cursor := some "p2" } rfl rfl

/-- C4: the blob synchronizer performs at most one fetch per content hash per
run (an existence check precedes every fetch, so a hash written earlier in the
run is skipped when listed again), and a second run against the unchanged
oracles, starting from the filesystem the first successful run produced,
performs zero fetches. -/
theorem c4_at_most_one_fetch_per_hash (env : Env) (ident : Identity)
    (recordsPath : String) (hpds : ident.pdsEndpoint ≠ "") :
    (∀ (fuel : Nat) (fs : FS) (cid : String),
      ((downloadBlobs env fs ident recordsPath fuel).2.1.count
        (Event.blobFetched cid)) ≤ 1) ∧
    (∀ (fuel : Nat) (fs : FS) (cid : String),
      (downloadBlobs env fs ident recordsPath fuel).1 = .ok () →
      Event.blobFetched cid ∉
        (downloadBlobs env (downloadBlobs env fs ident recordsPath fuel).2.2
          ident recordsPath fuel).2.1) := by
  have hd : ∀ fs fuel, downloadBlobs env fs ident recordsPath fuel =
      downloadBlobsLoop env (recordsPath ++ "/_blob") ident.did fuel "" fs := by
    intro fs fuel
    simp [downloadBlobs, hpds]
  constructor
  · intro fuel fs cid
    rw [hd fs fuel]
    exact (loop_count_le env (recordsPath ++ "/_blob") ident.did cid fuel "" fs).trans
      (by split <;> omega)
  · intro fuel fs cid hok
    rw [hd fs fuel] at hok
    rw [hd fs fuel, hd (downloadBlobsLoop env (recordsPath ++ "/_blob")
      ident.did fuel "" fs).2.2 fuel]
    exact (loop_rerun env (recordsPath ++ "/_blob") ident.did fuel "" fs
      (downloadBlobsLoop env (recordsPath ++ "/_blob") ident.did fuel "" fs).2.2
      hok (fun p h => h)).2.2 cid

/-- Witness for C4 on the two-page listing: hash "b1" is fetched at most once
in the first run, and not fetched at all in a second run starting from the
first run's filesystem. -/
theorem c4_at_most_one_fetch_per_hash_witness :
    ((downloadBlobs pagedEnv [] blobIdent "rec" 3).2.1.count
      (Event.blobFetched "b1")) ≤ 1 ∧
    Event.blobFetched "b1" ∉
      (downloadBlobs pagedEnv (downloadBlobs pagedEnv [] blobIdent "rec" 3).2.2
        blobIdent "rec" 3).2.1 :=
  ⟨(c4_at_most_one_fetch_per_hash pagedEnv blobIdent "rec" (by decide)).1 3 [] "b1",
   (c4_at_most_one_fetch_per_hash pagedEnv blobIdent "rec" (by decide)).2 3 [] "b1" rfl⟩

/-- C5: a failed blob fetch mid-pagination aborts the remaining blob work for
that identifier — the page stops at the failing hash, and the loop returns the
page's error — while the record export of that identifier, which completed
before blob sync started, is unaffected: the identifier's pipeline reports the
blob error, but its trace retains exactly the record-written events of the
completed unpack stage. -/
theorem c5_blob_fetch_failure_scope :
    (∀ (env : Env) (topDir did : String) (fs : FS) (cidStr : String)
        (rest : List String) (e : String),
      fsExists fs (topDir ++ "/" ++ cidStr) = false →
      env.getBlob cidStr did = .error e →
      processBlobPage env topDir did fs (cidStr :: rest) =
        (.error e, [.blobFetched cidStr], fs)) ∧
    (∀ (env : Env) (topDir did : String) (fuel : Nat) (cursor : String) (fs : FS)
        (page : BlobPage) (e : String),
      env.listBlobs cursor did = .ok page →
      (processBlobPage env topDir did fs page.cids).1 = .error e →
      downloadBlobsLoop env topDir did (fuel + 1) cursor fs =
        (.error e, .listCalled cursor :: (processBlobPage env topDir did fs page.cids).2.1,
         (processBlobPage env topDir did fs page.cids).2.2)) ∧
    (∀ (env : Env) (config : Config) (fuel : Nat) (fs : FS) (did atid : String)
        (ident : Identity) (e : String),
      env.parseAtIdentifier did = .ok atid →
      env.lookup atid = .ok ident →
      (downloadRepo env fs ident
        (config.carsDir ++ "/" ++ ident.did ++ ".car")).1 = .ok () →
      (unpackRecords env
        (downloadRepo env fs ident (config.carsDir ++ "/" ++ ident.did ++ ".car")).2.2
        (config.carsDir ++ "/" ++ ident.did ++ ".car")
        (config.recordsDir ++ "/" ++ ident.did)).1 = .ok () →
      config.downloadBlobs = true →
      (downloadBlobs env
        (unpackRecords env
          (downloadRepo env fs ident (config.carsDir ++ "/" ++ ident.did ++ ".car")).2.2
          (config.carsDir ++ "/" ++ ident.did ++ ".car")
          (config.recordsDir ++ "/" ++ ident.did)).2.2
        ident (config.recordsDir ++ "/" ++ ident.did) fuel).1 = .error e →
      (processRepo env config fuel fs did).1 = .error e ∧
      writtenKeys (processRepo env config fuel fs did).2.1 =
        writtenKeys (unpackRecords env
          (downloadRepo env fs ident (config.carsDir ++ "/" ++ ident.did ++ ".car")).2.2
          (config.carsDir ++ "/" ++ ident.did ++ ".car")
          (config.recordsDir ++ "/" ++ ident.did)).2.1) := by
  refine ⟨?_, ?_, ?_⟩
  · intro env topDir did fs cidStr rest e hex hg
    exact page_cons_fetchErr env topDir did fs cidStr rest e hex hg
  · intro env topDir did fuel cursor fs page e hL hp
    exact loop_succ_pageErr env topDir did fuel cursor fs page e hL hp
  · intro env config fuel fs did atid ident e hparse hlook hdl hup hcfg hblob
    rw [processRepo_eq_blobs env config fuel fs did atid ident hparse hlook hdl hup hcfg]
    refine ⟨hblob, ?_⟩
    dsimp only
    rw [writtenKeys_append, writtenKeys_append, writtenKeys_cons_processing,
      writtenKeys_downloadRepo, writtenKeys_downloadBlobs]
    simp

/-- Environment where the archive pipeline succeeds but every blob fetch
fails. -/
def fetchFailEnv : Env :=
  { sampleEnv with
    listBlobs := fun _ _ => .ok { cids := ["bx"], cursor := none }
    getBlob := fun _ _ => .error "fetch failed" }

/-- Configuration with blob downloading enabled. -/
def blobConfig : Config where
  downloadBlobs := true
  carsDir := "cars"
  recordsDir := "records"
  didsFile := "dids.txt"

/-- Witness for C5: blob "bx" fails to fetch, the page aborts at it, and the
identifier's pipeline errors while keeping the record events of the completed
unpack stage. -/
theorem c5_blob_fetch_failure_scope_witness :
    processBlobPage fetchFailEnv "t" "did:plc:w" [] ["bx"] =
      (.error "fetch failed", [.blobFetched "bx"], []) ∧
    ((processRepo fetchFailEnv blobConfig 3 [] "did:plc:w").1 = .error "fetch failed" ∧
     writtenKeys (processRepo fetchFailEnv blobConfig 3 [] "did:plc:w").2.1 =
       writtenKeys (unpackRecords fetchFailEnv
         (downloadRepo fetchFailEnv [] { did := "did:plc:w", pdsEndpoint := "https://pds.example" }
           ("cars" ++ "/" ++ "did:plc:w" ++ ".car")).2.2
         ("cars" ++ "/" ++ "did:plc:w" ++ ".car")
         ("records" ++ "/" ++ "did:plc:w")).2.1) :=
  ⟨c5_blob_fetch_failure_scope.1 fetchFailEnv "t" "did:plc:w" [] "bx" [] "fetch failed"
      rfl rfl,
   c5_blob_fetch_failure_scope.2.2 fetchFailEnv blobConfig 3 [] "did:plc:w" "did:plc:w"
     { did := "did:plc:w", pdsEndpoint := "https://pds.example" } "fetch failed"
     rfl rfl rfl rfl rfl rfl⟩

/-- A repository in which the record under key "a/b" fails to resolve. -/
def flakyRepo : Repo :=
  { sampleRepo with
    getRecord := fun k => if k = "a/b" then .error "could not find record" else .ok 0 }

/-- Environment whose archive decodes to `flakyRepo`. -/
def flakyEnv : Env :=
  { sampleEnv with readRepoFromCar := fun _ => .ok flakyRepo }

/-- Witness for C1: with the record at "a/b" failing to resolve, extraction
still succeeds, "a/b" is reported as skipped, and "a/c" is still written. -/
theorem c1_record_failures_skipped_others_written_witness :
    (unpackRecords flakyEnv [("cars/x.car", "carbytes")] "cars/x.car" "rec").1 = .ok () ∧
    ∀ kv ∈ [("a/b", 1), ("a/c", 2)],
      (∀ e, flakyRepo.getRecord kv.1 = .error e →
        Event.recordSkipped kv.1 ∈
          (unpackRecords flakyEnv [("cars/x.car", "carbytes")] "cars/x.car" "rec").2.1) ∧
      (∀ rec e, flakyRepo.getRecord kv.1 = .ok rec →
          flakyEnv.marshalRecord rec = .error e →
        Event.recordSkipped kv.1 ∈
          (unpackRecords flakyEnv [("cars/x.car", "carbytes")] "cars/x.car" "rec").2.1) ∧
      (∀ rec js, flakyRepo.getRecord kv.1 = .ok rec →
          flakyEnv.marshalRecord rec = .ok js →
        Event.recordWritten kv.1 ∈
          (unpackRecords flakyEnv [("cars/x.car", "carbytes")] "cars/x.car" "rec").2.1) :=
  c1_record_failures_skipped_others_written flakyEnv [("cars/x.car", "carbytes")]
    "cars/x.car" "rec" "carbytes" flakyRepo "commitjson" [("a/b", 1), ("a/c", 2)]
    (fun _ _ => rfl) (by decide) rfl rfl (by decide)

/-- C6: for a repository whose archive decodes successfully and whose MST
satisfies the traversal-order invariant (strictly ascending keys), the records
are exported in traversal order — the written keys are a subsequence of the
traversal keys and are strictly ascending — and the output key sequence is
deterministic: it does not depend on the rest of the filesystem state. -/
theorem c6_records_exported_in_ascending_key_order (env : Env) (fs : FS)
    (carPath recordsPath car : String) (r : Repo) (cj : String)
    (ks : List (String × Nat))
    (h1 : fsLookup fs carPath = some car)
    (h2 : env.readRepoFromCar car = .ok r)
    (h3 : env.marshalCommit r.signedCommit = .ok cj)
    (h5 : mstTraverse r.mst = some ks)
    (hSorted : ks.Pairwise (fun a b => a.1 < b.1)) :
    List.Sublist (writtenKeys (unpackRecords env fs carPath recordsPath).2.1)
      (ks.map Prod.fst) ∧
    (writtenKeys (unpackRecords env fs carPath recordsPath).2.1).Pairwise (· < ·) ∧
    ∀ fs', fsLookup fs' carPath = some car →
      writtenKeys (unpackRecords env fs' carPath recordsPath).2.1 =
        writtenKeys (unpackRecords env fs carPath recordsPath).2.1 := by
  have hmap : (ks.map Prod.fst).Pairwise (fun a b : String => a < b) :=
    (List.pairwise_map).mpr hSorted
  cases h4 : env.writeFile (recordsPath ++ "/_commit.json") cj with
  | error e =>
    have hz : ∀ g : FS, fsLookup g carPath = some car →
        (unpackRecords env g carPath recordsPath).2.1 = [] := by
      intro g hg
      simp only [unpackRecords, hg, h2, h3, h4]
    rw [hz fs h1]
    exact ⟨List.nil_sublist _, List.Pairwise.nil, fun fs' h1' => by rw [hz fs' h1']⟩
  | ok u =>
    cases u
    have hu : ∀ g : FS, fsLookup g carPath = some car →
        unpackRecords env g carPath recordsPath =
          ((forEachRecords env r recordsPath
              (fsWrite g (recordsPath ++ "/_commit.json") cj) ks).1,
           .commitWritten (recordsPath ++ "/_commit.json") ::
             (forEachRecords env r recordsPath
               (fsWrite g (recordsPath ++ "/_commit.json") cj) ks).2.1,
           (forEachRecords env r recordsPath
             (fsWrite g (recordsPath ++ "/_commit.json") cj) ks).2.2) := by
      intro g hg
      exact unpackRecords_eq env g carPath recordsPath car r cj ks hg h2 h3 h4 h5
    rw [hu fs h1]
    have hsub : List.Sublist
        (writtenKeys (forEachRecords env r recordsPath
          (fsWrite fs (recordsPath ++ "/_commit.json") cj) ks).2.1)
        (ks.map Prod.fst) := forEach_writtenKeys_sublist env r recordsPath ks _
    refine ⟨?_, ?_, ?_⟩
    · rw [writtenKeys_cons_commit]
      exact hsub
    · rw [writtenKeys_cons_commit]
      exact hmap.sublist hsub
    · intro fs' h1'
      rw [hu fs' h1']
      rw [writtenKeys_cons_commit, writtenKeys_cons_commit]
      rw [(forEach_fs_irrelevant env r recordsPath ks
        (fsWrite fs' (recordsPath ++ "/_commit.json") cj)
        (fsWrite fs (recordsPath ++ "/_commit.json") cj)).2]

/-- Witness for C6 in the sample environment: two records, keys "a/b" and
"a/c" in ascending order. -/
theorem c6_records_exported_in_ascending_key_order_witness :
    List.Sublist
      (writtenKeys (unpackRecords sampleEnv [("cars/x.car", "carbytes")]
        "cars/x.car" "rec").2.1)
      ([("a/b", 1), ("a/c", 2)].map Prod.fst) ∧
    (writtenKeys (unpackRecords sampleEnv [("cars/x.car", "carbytes")]
      "cars/x.car" "rec").2.1).Pairwise (· < ·) ∧
    ∀ fs', fsLookup fs' "cars/x.car" = some "carbytes" →
      writtenKeys (unpackRecords sampleEnv fs' "cars/x.car" "rec").2.1 =
        writtenKeys (unpackRecords sampleEnv [("cars/x.car", "carbytes")]
          "cars/x.car" "rec").2.1 :=
  c6_records_exported_in_ascending_key_order sampleEnv [("cars/x.car", "carbytes")]
    "cars/x.car" "rec" "carbytes" sampleRepo "commitjson" [("a/b", 1), ("a/c", 2)]
    (by decide) rfl rfl (by decide)
    (by
      refine List.Pairwise.cons ?_ (List.Pairwise.cons (fun y hy => nomatch hy) List.Pairwise.nil)
      intro y hy
      rcases List.mem_singleton.mp hy with rfl
      show ("a/b" : String) < "a/c"
      rw [String.lt_iff_toList_lt]
      decide)

/-- C9: a failure to write one record's JSON aborts the identifier's pipeline:
the error propagates out of the per-record callback — the loop stops at once,
processing none of the remaining keys — and becomes the result of
`unpackRecords`; by contrast a record-fetch failure only skips that key. -/
theorem c9_record_write_failure_aborts (env : Env) (r : Repo) (rp : String) :
    (∀ (fs : FS) (k : String) (v : Nat) (rest : List (String × Nat))
        (rec : RecordData) (js e : String),
      r.getRecord k = .ok rec →
      env.marshalRecord rec = .ok js →
      env.writeFile (rp ++ "/" ++ k ++ ".json") js = .error e →
      forEachRecords env r rp fs ((k, v) :: rest) = (.error e, [], fs)) ∧
    (∀ (fs : FS) (carPath car cj : String) (ks : List (String × Nat)) (e : String),
      fsLookup fs carPath = some car →
      env.readRepoFromCar car = .ok r →
      env.marshalCommit r.signedCommit = .ok cj →
      env.writeFile (rp ++ "/_commit.json") cj = .ok () →
      mstTraverse r.mst = some ks →
      (forEachRecords env r rp (fsWrite fs (rp ++ "/_commit.json") cj) ks).1 = .error e →
      (unpackRecords env fs carPath rp).1 = .error e) ∧
    (∀ (fs : FS) (k : String) (v : Nat) (rest : List (String × Nat)) (e : String),
      r.getRecord k = .error e →
      forEachRecords env r rp fs ((k, v) :: rest) =
        ((forEachRecords env r rp fs rest).1,
         .recordSkipped k :: (forEachRecords env r rp fs rest).2.1,
         (forEachRecords env r rp fs rest).2.2)) := by
  refine ⟨?_, ?_, ?_⟩
  · intro fs k v rest rec js e hg hm hw
    exact forEach_cons_writeErr env r rp fs k v rest rec js e hg hm hw
  · intro fs carPath car cj ks e h1 h2 h3 h4 h5 hloop
    rw [unpackRecords_eq env fs carPath rp car r cj ks h1 h2 h3 h4 h5]
    exact hloop
  · intro fs k v rest e hg
    exact forEach_cons_getErr env r rp fs k v rest e hg

/-- Environment in which every write of a record under "rec/" fails while the
commit write succeeds. -/
def badSinkEnv : Env :=
  { sampleEnv with
    writeFile := fun p _ => if p = "rec/_commit.json" then .ok () else .error "disk full" }

/-- Witness for C9: under `badSinkEnv` the write of record "a/b" fails, the
callback loop aborts immediately, and `unpackRecords` reports the error. -/
theorem c9_record_write_failure_aborts_witness :
    forEachRecords badSinkEnv sampleRepo "rec" [] [("a/b", 1), ("a/c", 2)] =
      (.error "disk full", [], []) ∧
    (unpackRecords badSinkEnv [("cars/x.car", "carbytes")] "cars/x.car" "rec").1 =
      .error "disk full" := by
  have h := c9_record_write_failure_aborts badSinkEnv sampleRepo "rec"
  refine ⟨h.1 [] "a/b" 1 [("a/c", 2)] 0 "recjson" "disk full" rfl rfl rfl, ?_⟩
  refine h.2.1 [("cars/x.car", "carbytes")] "cars/x.car" "carbytes" "commitjson"
    [("a/b", 1), ("a/c", 2)] "disk full" (by decide) rfl rfl rfl (by decide) ?_
  rw [h.1 _ "a/b" 1 [("a/c", 2)] 0 "recjson" "disk full" rfl rfl rfl]

end CarExtractor
